import Mathlib

/-!
Verification of the AI-Job-Companion backend against its specification.

This file is a shallow embedding, in Lean 4, of the two services the claims
concern:

* `JobScoringService` (job scoring: skill / experience / salary / location
  matching, weighted overall score, catch-all neutral score), and
* `ScrapersService` (scraper orchestration: source health tracking with
  failure-count blocking, per-source and per-job error containment, and
  `(source, externalId)` upsert idempotence).

Modelling conventions:

* JavaScript numbers are modelled as exact rationals (`ℚ`); `Math.round`
  becomes `jsRound` (floor of `x + 1/2`, which is JS round-half-up).
* Nullable / optional fields are `Option`; JS truthiness of a number field
  (`x` is falsy when `null`/`undefined`/`0`) is `numTruthy`; truthiness of a
  string field (falsy when `null`/`undefined`/`""`) is `strTruthy`.
* String operations (`toLowerCase`, `trim`, `split(',')`, `includes`) are
  implemented structurally over `List Char` with ASCII semantics, so that
  the kernel can evaluate them.
* `JSON.parse` is implemented as a small total JSON parser (`jsonParse`);
  JS `String(x)` conversion is `jsStringOfValue`.  The decimal rendering of
  non-integer numbers inside `String(x)` is approximated (the claims never
  depend on it).
* `Date` values are reduced to the `(getFullYear, getMonth)` pairs the code
  reads (`Ym`), and `Date.now()` timestamps to integer milliseconds.
* Database reads/writes and thrown exceptions are made explicit: fallible
  operations return `Except String`, stores are association lists or lists
  of records, and the current time is an explicit argument.
-/

/-! ### JavaScript primitives -/

/-- JS `Math.round`: round half toward positive infinity. -/
def jsRound (q : ℚ) : Int := ⌊q + 1/2⌋

/-- ASCII model of the whitespace trimmed by JS `String.prototype.trim`. -/
def jsIsSpace (c : Char) : Bool := c = ' ' || c = '\t' || c = '\n' || c = '\r'

/-- JS `String.prototype.toLowerCase` (ASCII model). -/
def jsToLower (s : String) : String := ⟨s.data.map Char.toLower⟩

/-- JS `String.prototype.trim` (ASCII model). -/
def jsTrim (s : String) : String :=
  ⟨((s.data.dropWhile jsIsSpace).reverse.dropWhile jsIsSpace).reverse⟩

def splitCommaAux : List Char → List Char → List String
  | [], acc => [⟨acc.reverse⟩]
  | c :: cs, acc =>
    if c = ',' then ⟨acc.reverse⟩ :: splitCommaAux cs [] else splitCommaAux cs (c :: acc)

/-- JS `s.split(',')`. -/
def jsSplitComma (s : String) : List String := splitCommaAux s.data []

def listIsPrefix : List Char → List Char → Bool
  | [], _ => true
  | _ :: _, [] => false
  | a :: as, b :: bs => a = b && listIsPrefix as bs

def listIsInfix (needle : List Char) : List Char → Bool
  | [] => listIsPrefix needle []
  | c :: cs => listIsPrefix needle (c :: cs) || listIsInfix needle cs

/-- JS `hay.includes(sub)` for strings. -/
def jsIncludes (hay sub : String) : Bool := listIsInfix sub.data hay.data

/-- JS truthiness of an optional number: `null`/`undefined` and `0` are falsy. -/
def numTruthy : Option ℚ → Bool
  | none => false
  | some q => q ≠ 0

/-- JS truthiness of an optional string: `null`/`undefined` and `""` are falsy. -/
def strTruthy : Option String → Bool
  | none => false
  | some s => s ≠ ""

/-! ### A small JSON model (for `JSON.parse` and `String(x)`) -/

inductive JsValue where
  | nullV : JsValue
  | boolV (b : Bool) : JsValue
  | numV (q : ℚ) : JsValue
  | strV (s : String) : JsValue
  | arrV (elems : List JsValue) : JsValue
  | objV (fields : List (String × JsValue)) : JsValue

def jsonSkipWs (cs : List Char) : List Char := cs.dropWhile (fun c => jsIsSpace c)

def hexVal (c : Char) : Option Nat :=
  if c.isDigit then some (c.toNat - 48)
  else if 'a' ≤ c ∧ c ≤ 'f' then some (c.toNat - 87)
  else if 'A' ≤ c ∧ c ≤ 'F' then some (c.toNat - 55)
  else none

def digitsVal (ds : List Char) : Nat := ds.foldl (fun a c => a * 10 + (c.toNat - 48)) 0

/-- Parse a JSON string body (after the opening quote).  Unknown escapes and
unescaped control characters make `JSON.parse` throw, modelled as `none`.
Surrogate-pair recombination for `\u` escapes is not modelled. -/
def parseJStringAux : List Char → List Char → Option (String × List Char)
  | [], _ => none
  | '"' :: rest, acc => some (⟨acc.reverse⟩, rest)
  | '\\' :: rest, acc =>
    match rest with
    | [] => none
    | e :: rest2 =>
      match e with
      | '"' => parseJStringAux rest2 ('"' :: acc)
      | '\\' => parseJStringAux rest2 ('\\' :: acc)
      | '/' => parseJStringAux rest2 ('/' :: acc)
      | 'b' => parseJStringAux rest2 ('\x08' :: acc)
      | 'f' => parseJStringAux rest2 ('\x0c' :: acc)
      | 'n' => parseJStringAux rest2 ('\n' :: acc)
      | 'r' => parseJStringAux rest2 ('\r' :: acc)
      | 't' => parseJStringAux rest2 ('\t' :: acc)
      | 'u' =>
        match rest2 with
        | a :: b :: c :: d :: rest3 =>
          match hexVal a, hexVal b, hexVal c, hexVal d with
          | some ha, some hb, some hc, some hd =>
            parseJStringAux rest3 (Char.ofNat (((ha * 16 + hb) * 16 + hc) * 16 + hd) :: acc)
          | _, _, _, _ => none
        | _ => none
      | _ => none
  | c :: rest, acc => if c.toNat < 32 then none else parseJStringAux rest (c :: acc)
termination_by cs _ => cs.length

/-- Parse a JSON number starting at `cs` (JSON grammar: optional minus,
integer part without leading zeros, optional fraction, optional exponent). -/
def parseJNumber (cs : List Char) : Option (ℚ × List Char) :=
  let (neg, cs1) : Bool × List Char :=
    match cs with
    | '-' :: r => (true, r)
    | _ => (false, cs)
  let intPart : Option (Nat × List Char) :=
    match cs1 with
    | '0' :: r =>
      match r with
      | d :: _ => if d.isDigit then none else some (0, r)
      | [] => some (0, [])
    | d :: _ =>
      if d.isDigit then
        some (digitsVal (cs1.takeWhile Char.isDigit), cs1.dropWhile Char.isDigit)
      else none
    | [] => none
  match intPart with
  | none => none
  | some (ip, r1) =>
    let fracPart : Option (ℚ × List Char) :=
      match r1 with
      | '.' :: r2 =>
        let ds := r2.takeWhile Char.isDigit
        if ds = [] then none
        else some ((digitsVal ds : ℚ) / (10 : ℚ) ^ ds.length, r2.dropWhile Char.isDigit)
      | _ => some (0, r1)
    match fracPart with
    | none => none
    | some (fp, r2) =>
      let expPart : Option (Bool × Nat × List Char) :=
        match r2 with
        | 'e' :: r3 | 'E' :: r3 =>
          let (eneg, r4) : Bool × List Char :=
            match r3 with
            | '-' :: r5 => (true, r5)
            | '+' :: r5 => (false, r5)
            | _ => (false, r3)
          let ds := r4.takeWhile Char.isDigit
          if ds = [] then none
          else some (eneg, digitsVal ds, r4.dropWhile Char.isDigit)
        | _ => some (false, 0, r2)
      match expPart with
      | none => none
      | some (eneg, ev, r3) =>
        let mag : ℚ := ((ip : ℚ) + fp) * (if eneg then 1 / (10 : ℚ) ^ ev else (10 : ℚ) ^ ev)
        some (if neg then -mag else mag, r3)

mutual

/-- Parse one JSON value (fuel-indexed to make recursion structural). -/
def parseJValue : Nat → List Char → Option (JsValue × List Char)
  | 0, _ => none
  | fuel + 1, cs =>
    let cs := jsonSkipWs cs
    match cs with
    | '[' :: rest =>
      match jsonSkipWs rest with
      | ']' :: rest2 => some (.arrV [], rest2)
      | rest2 =>
        match parseJValue fuel rest2 with
        | none => none
        | some (x, r) =>
          match parseJElems fuel r with
          | none => none
          | some (xs, r2) => some (.arrV (x :: xs), r2)
    | '{' :: rest =>
      match jsonSkipWs rest with
      | '}' :: rest2 => some (.objV [], rest2)
      | rest2 =>
        match parseJMember fuel rest2 with
        | none => none
        | some (kv, r) =>
          match parseJMembers fuel r with
          | none => none
          | some (kvs, r2) => some (.objV (kv :: kvs), r2)
    | '"' :: rest =>
      match parseJStringAux rest [] with
      | none => none
      | some (s, r) => some (.strV s, r)
    | 't' :: _ =>
      if listIsPrefix "true".data cs then some (.boolV true, cs.drop 4) else none
    | 'f' :: _ =>
      if listIsPrefix "false".data cs then some (.boolV false, cs.drop 5) else none
    | 'n' :: _ =>
      if listIsPrefix "null".data cs then some (.nullV, cs.drop 4) else none
    | c :: _ =>
      if c = '-' ∨ c.isDigit then
        match parseJNumber cs with
        | none => none
        | some (q, r) => some (.numV q, r)
      else none
    | [] => none

/-- Parse the remaining elements of a JSON array: `(ws ',' value)* ws ']'`. -/
def parseJElems : Nat → List Char → Option (List JsValue × List Char)
  | 0, _ => none
  | fuel + 1, cs =>
    match jsonSkipWs cs with
    | ']' :: r => some ([], r)
    | ',' :: r =>
      match parseJValue fuel r with
      | none => none
      | some (x, r2) =>
        match parseJElems fuel r2 with
        | none => none
        | some (xs, r3) => some (x :: xs, r3)
    | _ => none

/-- Parse one `"key" ws ':' value` member of a JSON object. -/
def parseJMember : Nat → List Char → Option ((String × JsValue) × List Char)
  | 0, _ => none
  | fuel + 1, cs =>
    match jsonSkipWs cs with
    | '"' :: rest =>
      match parseJStringAux rest [] with
      | none => none
      | some (k, r) =>
        match jsonSkipWs r with
        | ':' :: r2 =>
          match parseJValue fuel r2 with
          | none => none
          | some (v, r3) => some ((k, v), r3)
        | _ => none
    | _ => none

/-- Parse the remaining members of a JSON object: `(ws ',' member)* ws '}'`. -/
def parseJMembers : Nat → List Char → Option (List (String × JsValue) × List Char)
  | 0, _ => none
  | fuel + 1, cs =>
    match jsonSkipWs cs with
    | '}' :: r => some ([], r)
    | ',' :: r =>
      match parseJMember fuel r with
      | none => none
      | some (kv, r2) =>
        match parseJMembers fuel r2 with
        | none => none
        | some (kvs, r3) => some (kv :: kvs, r3)
    | _ => none

end

/-- JS `JSON.parse`:  `none` models a thrown `SyntaxError`. -/
def jsonParse (s : String) : Option JsValue :=
  match parseJValue (s.length + 1) s.data with
  | none => none
  | some (v, rest) => if jsonSkipWs rest = [] then some v else none

def joinComma : List String → String
  | [] => ""
  | [s] => s
  | s :: rest => s ++ "," ++ joinComma rest

/-- Rendering of a JS number to a string.  Integers are rendered exactly; the
shortest-round-trip decimal rendering of non-integers is approximated by the
`num/den` form (no claim depends on it). -/
def jsNumberToString (q : ℚ) : String :=
  if q.den = 1 then toString q.num else toString q.num ++ "/" ++ toString q.den

mutual

/-- JS `String(x)` conversion of a JSON value. -/
def jsStringOfValue : JsValue → String
  | .nullV => "null"
  | .boolV true => "true"
  | .boolV false => "false"
  | .numV q => jsNumberToString q
  | .strV s => s
  | .arrV xs => joinComma (jsStringArrayElems xs)
  | .objV _ => "[object Object]"

/-- Array elements under `Array.prototype.toString`: `null` renders as `""`. -/
def jsStringArrayElems : List JsValue → List String
  | [] => []
  | x :: xs =>
    (match x with
     | .nullV => ""
     | v => jsStringOfValue v) :: jsStringArrayElems xs

end

/-! ### Data model for `JobScoringService`
(src/apps/backend/src/education/dto/create-education.dto.ts, fourth unit) -/

/-- A user skill row (`prisma.skill`); only `name` is read by the scorer. -/
structure Skill where
  name : String
  deriving DecidableEq

/-- The `(getFullYear, getMonth)` view of a JS `Date`. -/
structure Ym where
  y : Int
  m : Int
  deriving DecidableEq

/-- The `endDate` field of an experience row: absent (`null`), present but
unparseable (`new Date(...)` is `NaN`), or a valid date. -/
inductive EndDateField where
  | nullDate : EndDateField
  | invalidDate : EndDateField
  | validDate (d : Ym) : EndDateField
  deriving DecidableEq

/-- An experience row as read by `calculateTotalYears`.  `startDate = none`
covers both a null and an unparseable start date (the code skips the row in
both cases). -/
structure Experience where
  startDate : Option Ym
  endDate : EndDateField
  isCurrent : Bool
  deriving DecidableEq

/-- The fields of a stored `Job` that the scorer reads. -/
structure Job where
  id : String
  location : Option String
  isRemote : Bool
  skillsRequired : Option String
  salaryMin : Option ℚ
  salaryMax : Option ℚ
  experienceMin : Option ℚ
  experienceMax : Option ℚ
  deriving DecidableEq

/-- The fields of a `JobTarget` row that the scorer reads. -/
structure JobTarget where
  minSalary : Option ℚ
  maxSalary : Option ℚ
  remotePreference : Option String
  preferredLocations : Option String
  deriving DecidableEq

/-- The analysis strings produced by the scorer, as tagged values.  Each
constructor stands for one template-literal message of the source (carrying
the interpolated numbers), e.g. `unableToAnalyze` is `"Unable to analyze"`;
the exact decimal rendering of the interpolation is not modelled. -/
inductive Analysis where
  | noExpReq : Analysis
  | expInRange (ty minv : ℚ) (maxv : Option ℚ) : Analysis
  | expBelow (ty minv gap : ℚ) : Analysis
  | expAbove (ty maxv : ℚ) : Analysis
  | salaryNotDisclosed : Analysis
  | noSalaryPref : Analysis
  | salaryBelowMin : Analysis
  | salaryExceedsTarget : Analysis
  | salaryAligns : Analysis
  | remoteMatch : Analysis
  | notRemoteButPrefer : Analysis
  | flexibleLocation : Analysis
  | noLocationPref : Analysis
  | locationMatch : Analysis
  | locationNoMatch : Analysis
  | unableToAnalyze : Analysis
  deriving DecidableEq

/-- The pros/cons strings pushed by `scoreJob`, as tagged values;
`errorDuringScoring` is `"Error occurred during scoring"`. -/
inductive ProCon where
  | skillsMatchCount (n : Nat) : ProCon
  | missingSkillsCount (n : Nat) : ProCon
  | experienceMatchesWell : ProCon
  | experienceMismatch : ProCon
  | salaryAligns : ProCon
  | salaryBelowExpectations : ProCon
  | locationPrefMatches : ProCon
  | errorDuringScoring : ProCon
  deriving DecidableEq

/-! ### `JobScoringService` operations -/

/-- The `SKILL_SYNONYMS` table, in object-literal insertion order. -/
def SKILL_SYNONYMS : List (String × List String) := [
  ("javascript", ["js", "ecmascript", "es6"]),
  ("typescript", ["ts"]),
  ("react", ["reactjs", "react.js"]),
  ("node.js", ["nodejs", "node"]),
  ("postgresql", ["postgres", "psql"]),
  ("mongodb", ["mongo"]),
  ("aws", ["amazon web services"]),
  ("gcp", ["google cloud", "google cloud platform"]),
  ("kubernetes", ["k8s"]),
  ("machine learning", ["ml"]),
  ("artificial intelligence", ["ai"]),
  ("ci/cd", ["cicd", "continuous integration"])]

/-- `JobScoringService.normalizeSkill`: lowercase, trim, then map to the
first synonym-table entry whose canonical name or synonym list hits. -/
def normalizeSkill (skill : String) : String :=
  let lower := jsTrim (jsToLower skill)
  match SKILL_SYNONYMS.find? (fun p => lower = p.1 || p.2.contains lower) with
  | some p => p.1
  | none => lower

/-- One inner step of the Levenshtein DP row update (`j`-loop of the source):
`d` is `matrix[i-1][j-1]`, the head of the second argument aligned with `x`
is `matrix[i-1][j]`, and `left` is `matrix[i][j-1]`. -/
def levRowAux (c : Char) : List Char → List Nat → Nat → List Nat
  | x :: xs, d :: u :: rest, left =>
    let cur := if x = c then d else 1 + min (min d left) u
    cur :: levRowAux c xs (u :: rest) cur
  | _, _, _ => []

/-- One outer step of the Levenshtein DP (`i`-loop of the source): compute
row `i` from row `i-1`. -/
def levRow (c : Char) (a : List Char) (prev : List Nat) : List Nat :=
  match prev with
  | d :: _ => (d + 1) :: levRowAux c a prev (d + 1)
  | [] => []

/-- `JobScoringService.levenshteinDistance` (row-by-row form of the
`matrix[i][j]` DP of the source; `matrix[b.length][a.length]` is the last
entry of the final row). -/
def levenshteinDistance (a b : String) : Nat :=
  if a.data.length = 0 then b.data.length
  else if b.data.length = 0 then a.data.length
  else
    let finalRow := b.data.foldl (fun row c => levRow c a.data row) (List.range (a.data.length + 1))
    finalRow.getLastD 0

/-- `JobScoringService.parseSkillsString`: empty/blank gives `[]`; a JSON
array maps elements through `String(s).trim()`; a JSON string and non-JSON
input are comma-split; other JSON values give `[]`. -/
def parseSkillsString (skills : Option String) : List String :=
  match skills with
  | none => []
  | some s =>
    if jsTrim s = "" then []
    else
      match jsonParse s with
      | some (JsValue.arrV xs) =>
        (xs.map (fun v => jsTrim (jsStringOfValue v))).filter (fun t => t ≠ "")
      | some (JsValue.strV t) =>
        ((jsSplitComma t).map jsTrim).filter (fun t => t ≠ "")
      | some _ => []
      | none => ((jsSplitComma s).map jsTrim).filter (fun t => t ≠ "")

/-- `JobScoringService.parseLocationsString` (same shape as
`parseSkillsString`). -/
def parseLocationsString (locations : Option String) : List String :=
  match locations with
  | none => []
  | some s =>
    if jsTrim s = "" then []
    else
      match jsonParse s with
      | some (JsValue.arrV xs) =>
        (xs.map (fun v => jsTrim (jsStringOfValue v))).filter (fun t => t ≠ "")
      | some (JsValue.strV t) =>
        ((jsSplitComma t).map jsTrim).filter (fun t => t ≠ "")
      | some _ => []
      | none => ((jsSplitComma s).map jsTrim).filter (fun t => t ≠ "")

/-- `JobScoringService.skillMatches`: exact membership, synonym-table hit,
substring containment either way, or edit distance at most 2. -/
def skillMatches (skill : String) (userSkills : List String) : Bool :=
  userSkills.contains skill ||
  ((SKILL_SYNONYMS.lookup skill).getD []).any (fun syn => userSkills.contains syn) ||
  userSkills.any (fun u =>
    jsIncludes u skill || jsIncludes skill u || levenshteinDistance skill u ≤ 2)

structure SkillMatchResult where
  score : ℚ
  matchedSkills : List String
  missingSkills : List String
  deriving DecidableEq

/-- `JobScoringService.calculateSkillMatch`. -/
def calculateSkillMatch (job : Job) (userSkills : List Skill) : SkillMatchResult :=
  let requiredSkills := parseSkillsString job.skillsRequired
  if requiredSkills.length = 0 then
    { score := 75, matchedSkills := [], missingSkills := [] }
  else
    let userSkillNames := userSkills.map (fun s => normalizeSkill s.name)
    let lists :=
      requiredSkills.foldl
        (fun acc required =>
          if skillMatches (normalizeSkill required) userSkillNames then
            (acc.1 ++ [required], acc.2)
          else
            (acc.1, acc.2 ++ [required]))
        (([], []) : List String × List String)
    let matchRatio : ℚ := (lists.1.length : ℚ) / (requiredSkills.length : ℚ)
    { score := (jsRound (matchRatio * 100) : ℚ),
      matchedSkills := lists.1, missingSkills := lists.2 }

/-- The month span one experience row contributes in
`JobScoringService.calculateTotalYears` (0 when skipped or non-positive). -/
def experienceMonths (now : Ym) (e : Experience) : Int :=
  match e.startDate with
  | none => 0
  | some s =>
    let endYm : Option Ym :=
      if e.isCurrent then some now
      else
        match e.endDate with
        | .nullDate => some now
        | .invalidDate => none
        | .validDate d => some d
    match endYm with
    | none => 0
    | some en =>
      let months := (en.y - s.y) * 12 + (en.m - s.m)
      if 0 < months then months else 0

/-- `JobScoringService.calculateTotalYears`: total positive month spans,
converted to years rounded to one decimal. -/
def calculateTotalYears (experiences : List Experience) (now : Ym) : ℚ :=
  let totalMonths := experiences.foldl (fun acc e => acc + experienceMonths now e) 0
  (jsRound ((totalMonths : ℚ) / 12 * 10) : ℚ) / 10

structure AnalysedScore where
  score : ℚ
  analysis : Analysis
  deriving DecidableEq

/-- `JobScoringService.calculateExperienceMatch`. -/
def calculateExperienceMatch (job : Job) (experiences : List Experience) (now : Ym) :
    AnalysedScore :=
  let totalYears := calculateTotalYears experiences now
  if !(numTruthy job.experienceMin) && !(numTruthy job.experienceMax) then
    { score := 80, analysis := .noExpReq }
  else
    -- `min = experienceMin || 0`, `max = experienceMax || Infinity`
    let minv : ℚ := if numTruthy job.experienceMin then job.experienceMin.getD 0 else 0
    let maxv : Option ℚ := if numTruthy job.experienceMax then job.experienceMax else none
    if decide (minv ≤ totalYears) && maxv.all (fun mx => decide (totalYears ≤ mx)) then
      { score := 100, analysis := .expInRange totalYears minv maxv }
    else if totalYears < minv then
      let gap := minv - totalYears
      { score := max 0 (100 - gap * 15), analysis := .expBelow totalYears minv gap }
    else
      -- only reachable with a finite (truthy) `experienceMax`; `getD` unused otherwise
      let mx := maxv.getD 0
      let excess := totalYears - mx
      { score := max 60 (100 - excess * 5), analysis := .expAbove totalYears mx }

/-- `JobScoringService.calculateSalaryMatch`. -/
def calculateSalaryMatch (job : Job) (targets : Option JobTarget) : AnalysedScore :=
  if !(numTruthy job.salaryMin) && !(numTruthy job.salaryMax) then
    { score := 70, analysis := .salaryNotDisclosed }
  else
    let targetMin : Option ℚ := match targets with | none => none | some t => t.minSalary
    if !(numTruthy targetMin) then
      { score := 80, analysis := .noSalaryPref }
    else
      let minS := targetMin.getD 0
      let jMax := job.salaryMax.getD 0
      if numTruthy job.salaryMax && decide (jMax < minS) then
        let gap := (minS - jMax) / minS * 100
        { score := max 0 (100 - gap), analysis := .salaryBelowMin }
      else
        let jMin := job.salaryMin.getD 0
        let tMax : Option ℚ := match targets with | none => none | some t => t.maxSalary
        if numTruthy job.salaryMin && numTruthy tMax && decide (jMin > tMax.getD 0) then
          { score := 95, analysis := .salaryExceedsTarget }
        else
          { score := 85, analysis := .salaryAligns }

/-- `JobScoringService.calculateLocationMatch`. -/
def calculateLocationMatch (job : Job) (targets : Option JobTarget) : AnalysedScore :=
  let remotePref : Option String := match targets with | none => none | some t => t.remotePreference
  if remotePref = some "remote" then
    if job.isRemote then { score := 100, analysis := .remoteMatch }
    else { score := 30, analysis := .notRemoteButPrefer }
  else if remotePref = some "any" then
    { score := 90, analysis := .flexibleLocation }
  else
    let prefLocs : Option String := match targets with | none => none | some t => t.preferredLocations
    if !(strTruthy prefLocs) then
      { score := 80, analysis := .noLocationPref }
    else
      let preferredLocations := parseLocationsString prefLocs
      let jobLocation := match job.location with | none => "" | some l => jsToLower l
      if preferredLocations.length = 0 then
        { score := 80, analysis := .noLocationPref }
      else if preferredLocations.any (fun loc => jsIncludes jobLocation (jsToLower loc)) then
        { score := 100, analysis := .locationMatch }
      else
        { score := 40, analysis := .locationNoMatch }

/-- The profile rows `scoreJob` fetches (`skill.findMany`,
`jobTarget.findUnique`, `experience.findMany`). -/
structure ProfileRows where
  skills : List Skill
  jobTargets : Option JobTarget
  experiences : List Experience

/-- The `scoreBreakdown` object. -/
structure Breakdown where
  experienceAnalysis : Analysis
  salaryAnalysis : Analysis
  locationAnalysis : Analysis
  pros : List ProCon
  cons : List ProCon
  deriving DecidableEq

/-- The `ScoreResult` returned by `scoreJob`. -/
structure ScoreResult where
  overallScore : Int
  semanticScore : ℚ
  skillMatchScore : ℚ
  experienceMatchScore : ℚ
  salaryMatchScore : ℚ
  locationMatchScore : ℚ
  matchedSkills : List String
  missingSkills : List String
  breakdown : Breakdown
  deriving DecidableEq

/-- The row upserted into `jobScore` (`matchedSkills`, `missingSkills` and
`scoreBreakdown` are `JSON.stringify`-ed in the store; modelled
structurally). -/
structure JobScoreWrite where
  jobId : String
  userId : String
  overallScore : Int
  semanticScore : ℚ
  skillMatchScore : ℚ
  experienceMatchScore : ℚ
  salaryMatchScore : ℚ
  locationMatchScore : ℚ
  matchedSkills : List String
  missingSkills : List String
  scoreBreakdown : Breakdown
  deriving DecidableEq

/-- The success path of `JobScoringService.scoreJob` (after the three profile
fetches succeeded): component scores, weighted overall score, pros/cons. -/
def scoreJobPure (job : Job) (rows : ProfileRows) (now : Ym) : ScoreResult :=
  let skillScore := calculateSkillMatch job rows.skills
  let experienceScore := calculateExperienceMatch job rows.experiences now
  let salaryScore := calculateSalaryMatch job rows.jobTargets
  let locationScore := calculateLocationMatch job rows.jobTargets
  -- `const semanticScore = { score: 70 }` (embedding placeholder)
  let semanticScore : ℚ := 70
  let overallScore := jsRound (semanticScore * (3/10) + skillScore.score * (3/10) +
    experienceScore.score * (2/10) + salaryScore.score * (1/10) + locationScore.score * (1/10))
  let pros : List ProCon :=
    (if skillScore.score ≥ 70 then [.skillsMatchCount skillScore.matchedSkills.length] else []) ++
    (if experienceScore.score ≥ 80 then [.experienceMatchesWell] else []) ++
    (if salaryScore.score ≥ 80 then [.salaryAligns] else []) ++
    (if locationScore.score ≥ 80 then [.locationPrefMatches] else [])
  let cons : List ProCon :=
    (if skillScore.score ≥ 70 then []
     else if skillScore.missingSkills.length > 0 then
       [.missingSkillsCount skillScore.missingSkills.length]
     else []) ++
    (if experienceScore.score ≥ 80 then []
     else if experienceScore.score < 50 then [.experienceMismatch] else []) ++
    (if salaryScore.score ≥ 80 then []
     else if salaryScore.score < 50 then [.salaryBelowExpectations] else [])
  { overallScore := overallScore,
    semanticScore := semanticScore,
    skillMatchScore := skillScore.score,
    experienceMatchScore := experienceScore.score,
    salaryMatchScore := salaryScore.score,
    locationMatchScore := locationScore.score,
    matchedSkills := skillScore.matchedSkills,
    missingSkills := skillScore.missingSkills,
    breakdown := { experienceAnalysis := experienceScore.analysis,
                   salaryAnalysis := salaryScore.analysis,
                   locationAnalysis := locationScore.analysis,
                   pros := pros, cons := cons } }

/-- The catch branch of `scoreJob`: the neutral all-50 result. -/
def defaultScoreResult : ScoreResult :=
  { overallScore := 50, semanticScore := 50, skillMatchScore := 50,
    experienceMatchScore := 50, salaryMatchScore := 50, locationMatchScore := 50,
    matchedSkills := [], missingSkills := [],
    breakdown := { experienceAnalysis := .unableToAnalyze,
                   salaryAnalysis := .unableToAnalyze,
                   locationAnalysis := .unableToAnalyze,
                   pros := [], cons := [.errorDuringScoring] } }

/-- The `jobScore.upsert` payload, built from the locals that also make up
the returned result (the source lists the same expressions in both). -/
def jobScoreWriteOf (userId : String) (job : Job) (r : ScoreResult) : JobScoreWrite :=
  { jobId := job.id, userId := userId, overallScore := r.overallScore,
    semanticScore := r.semanticScore, skillMatchScore := r.skillMatchScore,
    experienceMatchScore := r.experienceMatchScore, salaryMatchScore := r.salaryMatchScore,
    locationMatchScore := r.locationMatchScore, matchedSkills := r.matchedSkills,
    missingSkills := r.missingSkills, scoreBreakdown := r.breakdown }

/-- `JobScoringService.scoreJob`.  The fallible environment steps are
explicit: `fetched` is the outcome of the three profile fetches, and
`persistOk = false` models the `jobScore.upsert` throwing.  The second
component is the list of rows the call persisted; any internal error lands
in the catch branch, which returns `defaultScoreResult`. -/
def scoreJob (userId : String) (job : Job) (fetched : Except String ProfileRows)
    (persistOk : Bool) (now : Ym) : ScoreResult × List JobScoreWrite :=
  match fetched with
  | .error _ => (defaultScoreResult, [])
  | .ok rows =>
    if persistOk then
      let r := scoreJobPure job rows now
      (r, [jobScoreWriteOf userId job r])
    else
      (defaultScoreResult, [])

/-! ### Data model for `ScrapersService` (src/unnamed/part_012) -/

/-- The normalized job a portal scraper returns (`ScrapedJob`).  `processJob`
copies exactly these fields into its upsert payload, so the stored job row is
modelled by the same structure. -/
structure ScrapedJob where
  externalId : String
  source : String
  sourceUrl : String
  title : String
  company : String
  location : Option String
  isRemote : Option Bool
  description : Option String
  requirements : Option String
  responsibilities : Option String
  skillsRequired : Option String
  salaryMin : Option ℚ
  salaryMax : Option ℚ
  salaryCurrency : Option String
  experienceMin : Option ℚ
  experienceMax : Option ℚ
  employmentType : Option String
  postedDate : Option Ym
  companyLogoUrl : Option String
  benefits : Option String
  industry : Option String
  companySize : Option String
  deriving DecidableEq

/-- Key match on the `(source, externalId)` natural key. -/
def jobKeyEq (r : ScrapedJob) (src eid : String) : Bool :=
  r.source = src && r.externalId = eid

/-- `prisma.job.findFirst({ where: { source, externalId } })`. -/
def findFirstJob (db : List ScrapedJob) (src eid : String) : Option ScrapedJob :=
  db.find? (fun r => jobKeyEq r src eid)

def replaceFirstJob (data : ScrapedJob) : List ScrapedJob → List ScrapedJob
  | [] => []
  | r :: rest =>
    if jobKeyEq r data.source data.externalId then data :: rest
    else r :: replaceFirstJob data rest

/-- `JobsService.upsertFromScraper`: prisma upsert on the unique
`(source, externalId)` key — update the (by the unique constraint, single)
matching row, else insert. -/
def upsertFromScraper (data : ScrapedJob) (db : List ScrapedJob) : List ScrapedJob :=
  if db.any (fun r => jobKeyEq r data.source data.externalId) then replaceFirstJob data db
  else db ++ [data]

/-- `ScrapersService.processJob`: look up the existing row, upsert the job
data (a verbatim copy of the scraped fields), report `isNew = !existing`. -/
def processJob (job : ScrapedJob) (db : List ScrapedJob) : Bool × List ScrapedJob :=
  let existing := findFirstJob db job.source job.externalId
  let db2 := upsertFromScraper job db
  (existing.isNone, db2)

/-- `SourceHealth` (timestamps as integer epoch milliseconds). -/
structure SourceHealth where
  source : String
  enabled : Bool
  isBlocked : Bool
  blockedAt : Option Int
  consecutiveFailures : Nat
  lastSuccess : Option Int
  lastRun : Option Int
  deriving DecidableEq

/-- `maxConsecutiveFailures = 3`. -/
def maxConsecutiveFailures : Nat := 3

/-- `blockDuration = 24 * 60 * 60 * 1000` ms. -/
def blockDuration : Int := 24 * 60 * 60 * 1000

/-- The health entry `initializeScrapers` creates for a scraper. -/
def initialHealth (name : String) (enabled : Bool) : SourceHealth :=
  { source := name, enabled := enabled, isBlocked := false, blockedAt := none,
    consecutiveFailures := 0, lastSuccess := none, lastRun := none }

/-- The `sourceHealth` map, as an association list keyed by scraper name. -/
abbrev HealthMap : Type := List (String × SourceHealth)

/-- In-place mutation of one entry of the health map. -/
def setHealth (m : HealthMap) (k : String) (v : SourceHealth) : HealthMap :=
  List.map (fun p => if p.1 = k then (k, v) else p) m

def lookupHealth (m : HealthMap) (k : String) : Option SourceHealth :=
  List.lookup k m

/-- The body of `ScrapersService.isSourceAvailable` on one health record:
blocked records stay unavailable until the block window has elapsed, at
which point the check auto-unblocks (resetting the failure count) and
reports available; unblocked records report their `enabled` flag. -/
def sourceAvailability (now : Int) (h : SourceHealth) : Bool × SourceHealth :=
  if h.isBlocked then
    match h.blockedAt with
    | some t =>
      if now - t ≥ blockDuration then
        (true, { h with isBlocked := false, blockedAt := none, consecutiveFailures := 0 })
      else (false, h)
    | none => (false, h)
  else (h.enabled, h)

/-- `ScrapersService.isSourceAvailable` (map level; the auto-unblock mutates
the stored record, and an unknown source reports unavailable). -/
def isSourceAvailable (m : HealthMap) (source : String) (now : Int) : Bool × HealthMap :=
  match lookupHealth m source with
  | none => (false, m)
  | some h =>
    let p := sourceAvailability now h
    (p.1, setHealth m source p.2)

/-- The body of `ScrapersService.updateSourceHealth` on one record: success
resets the failure count and clears any block; failure increments it, and
reaching `maxConsecutiveFailures` blocks the source, returning `true`. -/
def healthUpdate (now : Int) (success : Bool) (h : SourceHealth) : SourceHealth × Bool :=
  if success then
    ({ h with
        consecutiveFailures := 0, lastSuccess := some now, lastRun := some now,
        isBlocked := false, blockedAt := none }, false)
  else
    let cf := h.consecutiveFailures + 1
    if cf ≥ maxConsecutiveFailures then
      ({ h with
          consecutiveFailures := cf, lastRun := some now,
          isBlocked := true, blockedAt := some now }, true)
    else
      ({ h with consecutiveFailures := cf, lastRun := some now }, false)

/-- `ScrapersService.updateSourceHealth` (map level). -/
def updateSourceHealth (m : HealthMap) (source : String) (success : Bool) (now : Int) :
    HealthMap × Bool :=
  match lookupHealth m source with
  | none => (m, false)
  | some h =>
    let p := healthUpdate now success h
    (setHealth m source p.1, p.2)

/-- `ScrapersService.unblockSource` applied to one health record. -/
def unblockSource (h : SourceHealth) : SourceHealth :=
  { h with isBlocked := false, blockedAt := none, consecutiveFailures := 0 }

/-- A portal scraper as the orchestrator sees it for one run: its `name`,
its `enabled` flag, and the outcome of `scrape(config)` (a job list, or a
thrown error). -/
structure Scraper where
  name : String
  enabled : Bool
  scrapeOutcome : Except String (List ScrapedJob)

/-- The model of `this.processJob` as invoked by `runScraper`, including the
possibility of a thrown (prisma) error for an individual job. -/
def ProcessFn : Type :=
  ScrapedJob → List ScrapedJob → Except String (Bool × List ScrapedJob)

/-- The non-throwing instantiation: `processJob` as embedded above. -/
def processJobE : ProcessFn := fun job db => .ok (processJob job db)

/-- `ScraperResult` (the `duration` timing field is not modelled). -/
structure ScraperResult where
  source : String
  success : Bool
  jobsFound : Nat
  jobsNew : Nat
  jobsUpdated : Nat
  error : Option String
  blocked : Option Bool
  deriving DecidableEq

/-- The per-job loop of `runScraper`: a failed `processJob` is caught and
logged, incrementing neither counter and leaving the store as it was. -/
def processJobsLoop (procJob : ProcessFn) :
    List ScrapedJob → List ScrapedJob → Nat × Nat × List ScrapedJob
  | [], db => (0, 0, db)
  | j :: rest, db =>
    match procJob j db with
    | .error _ => processJobsLoop procJob rest db
    | .ok (isNew, db2) =>
      let t := processJobsLoop procJob rest db2
      if isNew then (t.1 + 1, t.2.1, t.2.2) else (t.1, t.2.1 + 1, t.2.2)

/-- `ScrapersService.runScraper`: scrape, process each job, record health.
A thrown scrape is caught and reported as a failed `ScraperResult` carrying
the error message and the new-block flag.  (The `scraperRun` bookkeeping
rows are not modelled.) -/
def runScraper (procJob : ProcessFn) (scraper : Scraper) (now : Int)
    (hm : HealthMap) (db : List ScrapedJob) :
    ScraperResult × HealthMap × List ScrapedJob :=
  match scraper.scrapeOutcome with
  | .ok jobs =>
    let t := processJobsLoop procJob jobs db
    let u := updateSourceHealth hm scraper.name true now
    ({ source := scraper.name, success := true, jobsFound := jobs.length,
       jobsNew := t.1, jobsUpdated := t.2.1, error := none, blocked := none },
     u.1, t.2.2)
  | .error msg =>
    let u := updateSourceHealth hm scraper.name false now
    ({ source := scraper.name, success := false, jobsFound := 0, jobsNew := 0,
       jobsUpdated := 0, error := some msg, blocked := some u.2 },
     u.1, db)

/-- The all-enabled selection branch of `scrapeAll`: iterate the scraper
registry in insertion order, keeping enabled sources whose availability
check passes (`scraper.enabled &&` short-circuits before the check). -/
def selectAllEnabled (registry : List (String × Scraper)) (hm : HealthMap) (now : Int) :
    List Scraper × HealthMap :=
  registry.foldl
    (fun acc entry =>
      if entry.2.enabled then
        let p := isSourceAvailable acc.2 entry.1 now
        if p.1 then (acc.1 ++ [entry.2], p.2) else (acc.1, p.2)
      else acc)
    ([], hm)

/-- The selection phase of `scrapeAll`.  With a non-empty explicit source
list, each requested name is lowercased for the registry lookup but passed
unchanged to the availability check; a missing scraper short-circuits
before the availability check runs. -/
def selectScrapers (registry : List (String × Scraper)) (hm : HealthMap)
    (sources : Option (List String)) (now : Int) : List Scraper × HealthMap :=
  match sources with
  | some srcs =>
    if srcs.length > 0 then
      srcs.foldl
        (fun acc source =>
          match List.lookup (jsToLower source) registry with
          | none => acc
          | some scraper =>
            let p := isSourceAvailable acc.2 source now
            if p.1 then (acc.1 ++ [scraper], p.2) else (acc.1, p.2))
        ([], hm)
    else selectAllEnabled registry hm now
  | none => selectAllEnabled registry hm now

/-- The run phase of `scrapeAll`.  The `maxConcurrency = 3` batching via
`Promise.all` preserves result order and distinct sources own distinct
health entries, so it is modelled sequentially. -/
def runSelected (procJob : ProcessFn) (scrapers : List Scraper) (now : Int)
    (hm : HealthMap) (db : List ScrapedJob) :
    List ScraperResult × HealthMap × List ScrapedJob :=
  match scrapers with
  | [] => ([], hm, db)
  | s :: rest =>
    let r := runScraper procJob s now hm db
    let t := runSelected procJob rest now r.2.1 r.2.2
    (r.1 :: t.1, t.2.1, t.2.2)

structure ScrapeAllResult where
  results : List ScraperResult
  totalJobsNew : Nat
  totalJobsUpdated : Nat
  deriving DecidableEq

/-- `ScrapersService.scrapeAll` (the user-profile search config does not
influence anything the claims are about and is not modelled): select
scrapers, run them, total the counters.  Being a total function, it returns
a result list for every input — no exception propagates out of a batch. -/
def scrapeAll (procJob : ProcessFn) (registry : List (String × Scraper)) (hm : HealthMap)
    (sources : Option (List String)) (now : Int) (db : List ScrapedJob) :
    ScrapeAllResult × HealthMap × List ScrapedJob :=
  let sel := selectScrapers registry hm sources now
  let t := runSelected procJob sel.1 now sel.2 db
  ({ results := t.1,
     totalJobsNew := (t.1.map (fun r => r.jobsNew)).sum,
     totalJobsUpdated := (t.1.map (fun r => r.jobsUpdated)).sum },
   t.2.1, t.2.2)

/-! ### Concrete instances used by witnesses and counterexamples -/

/-- A job requiring "Python, Django" (comma-separated skills field). -/
def jobPythonDjango : Job :=
  { id := "job-1", location := none, isRemote := false,
    skillsRequired := some "Python, Django", salaryMin := none, salaryMax := none,
    experienceMin := none, experienceMax := none }

/-- A profile with no skills, targets or experience. -/
def emptyRows : ProfileRows := { skills := [], jobTargets := none, experiences := [] }

/-- A profile whose only stored target is a positive minimum salary. -/
def salaryRows : ProfileRows :=
  { skills := [],
    jobTargets := some { minSalary := some 5, maxSalary := none,
                         remotePreference := none, preferredLocations := none },
    experiences := [] }

/-- A scraped job with only the required fields populated. -/
def sampleScrapedJob : ScrapedJob :=
  { externalId := "ext-1", source := "indeed", sourceUrl := "u", title := "t", company := "c",
    location := none, isRemote := none, description := none, requirements := none,
    responsibilities := none, skillsRequired := none, salaryMin := none, salaryMax := none,
    salaryCurrency := none, experienceMin := none, experienceMax := none,
    employmentType := none, postedDate := none, companyLogoUrl := none, benefits := none,
    industry := none, companySize := none }

/-- A scraper whose run succeeds with a single job. -/
def okScraper : Scraper :=
  { name := "indeed", enabled := true, scrapeOutcome := .ok [sampleScrapedJob] }

/-- A scraper whose run throws. -/
def failingScraper : Scraper :=
  { name := "indeed", enabled := true, scrapeOutcome := .error "boom" }

/-- A disabled scraper (for the disabled-source scheduling analysis). -/
def disabledScraper : Scraper :=
  { name := "indeed", enabled := false, scrapeOutcome := .ok [] }

/-- The health record of a disabled source that is blocked, with the block
placed at time 0. -/
def disabledBlockedHealth : SourceHealth :=
  { source := "indeed", enabled := false, isBlocked := true, blockedAt := some 0,
    consecutiveFailures := 3, lastSuccess := none, lastRun := none }

/-- An enabled scraper registered under the all-lowercase name "linkedin". -/
def linkedinScraper : Scraper :=
  { name := "linkedin", enabled := true, scrapeOutcome := .ok [] }

/-- Number of stored job rows carrying a given `(source, externalId)` key. -/
def countKey (db : List ScrapedJob) (src eid : String) : Nat :=
  (db.filter (fun r => jobKeyEq r src eid)).length

/-- The health record of an enabled source after `n` consecutive failures
(not yet blocked), last run at `t`. -/
def failedHealth (s : String) (n : Nat) (t : Int) : SourceHealth :=
  { source := s, enabled := true, isBlocked := false, blockedAt := none,
    consecutiveFailures := n, lastSuccess := none, lastRun := some t }

/-- The health record of an enabled source just blocked at time `t` after
its third consecutive failure. -/
def blockedHealth (s : String) (t : Int) : SourceHealth :=
  { source := s, enabled := true, isBlocked := true, blockedAt := some t,
    consecutiveFailures := 3, lastSuccess := none, lastRun := some t }

/-! ### Helper lemmas -/

theorem jsRound_nonneg (q : ℚ) (h : 0 ≤ q) : 0 ≤ jsRound q := by
  unfold jsRound
  have : (0:ℚ) ≤ q + 1/2 := by linarith
  exact Int.floor_nonneg.mpr this

theorem jsRound_le_100 (q : ℚ) (h : q ≤ 100) : jsRound q ≤ 100 := by
  unfold jsRound
  have h1 : ⌊q + 1/2⌋ ≤ ⌊(201:ℚ)/2⌋ := Int.floor_le_floor (by linarith)
  have h2 : ⌊(201:ℚ)/2⌋ = 100 := by
    apply Int.floor_eq_iff.mpr
    constructor <;> norm_num
  omega

theorem jsRound_eq_of (q : ℚ) (n : ℤ) (h1 : (n:ℚ) ≤ q + 1/2) (h2 : q + 1/2 < n + 1) :
    jsRound q = n := by
  unfold jsRound
  refine Int.floor_eq_iff.mpr ⟨h1, ?_⟩
  exact_mod_cast h2

/-! ### Claim theorems -/

/-- C2: `scoreJob` never throws past its boundary: on any internal error
(failed profile fetch or failed persist), it returns the neutral breakdown —
all six scores 50, empty matched/missing lists, every analysis equal to
"Unable to analyze", no pros, and the error note "Error occurred during
scoring" in `cons`. -/
theorem C2_scoreJob_neutral_on_error (userId : String) (job : Job)
    (fetched : Except String ProfileRows) (persistOk : Bool) (now : Ym)
    (herr : (∃ e, fetched = .error e) ∨ persistOk = false) :
    (scoreJob userId job fetched persistOk now).1.overallScore = 50 ∧
    (scoreJob userId job fetched persistOk now).1.semanticScore = 50 ∧
    (scoreJob userId job fetched persistOk now).1.skillMatchScore = 50 ∧
    (scoreJob userId job fetched persistOk now).1.experienceMatchScore = 50 ∧
    (scoreJob userId job fetched persistOk now).1.salaryMatchScore = 50 ∧
    (scoreJob userId job fetched persistOk now).1.locationMatchScore = 50 ∧
    (scoreJob userId job fetched persistOk now).1.matchedSkills = [] ∧
    (scoreJob userId job fetched persistOk now).1.missingSkills = [] ∧
    (scoreJob userId job fetched persistOk now).1.breakdown.experienceAnalysis = .unableToAnalyze ∧
    (scoreJob userId job fetched persistOk now).1.breakdown.salaryAnalysis = .unableToAnalyze ∧
    (scoreJob userId job fetched persistOk now).1.breakdown.locationAnalysis = .unableToAnalyze ∧
    (scoreJob userId job fetched persistOk now).1.breakdown.pros = [] ∧
    (scoreJob userId job fetched persistOk now).1.breakdown.cons = [.errorDuringScoring] := by
  have hdef : (scoreJob userId job fetched persistOk now).1 = defaultScoreResult := by
    rcases herr with ⟨e, he⟩ | hp
    · subst he; simp [scoreJob]
    · subst hp
      cases fetched with
      | error e => simp [scoreJob]
      | ok rows => simp [scoreJob]
  rw [hdef]
  refine ⟨rfl, rfl, rfl, rfl, rfl, rfl, rfl, rfl, rfl, rfl, rfl, rfl, rfl⟩

/-- Witness for C2 at a concrete failed fetch. -/
theorem C2_scoreJob_neutral_on_error_witness :
    (scoreJob "user-1" jobPythonDjango (.error "db down") true { y := 2024, m := 0 }).1.overallScore = 50 ∧
    (scoreJob "user-1" jobPythonDjango (.error "db down") true { y := 2024, m := 0 }).1.breakdown.cons
      = [.errorDuringScoring] :=
  ⟨(C2_scoreJob_neutral_on_error "user-1" jobPythonDjango (.error "db down") true
      { y := 2024, m := 0 } (Or.inl ⟨"db down", rfl⟩)).1,
   (C2_scoreJob_neutral_on_error "user-1" jobPythonDjango (.error "db down") true
      { y := 2024, m := 0 } (Or.inl ⟨"db down", rfl⟩)).2.2.2.2.2.2.2.2.2.2.2.2⟩

/-- C5 as stated is false: `scoreJob` is not free of side effects beyond
returning its result — on the success path it persists the computed score
itself (the `jobScore.upsert` write), so persistence is not left to the
caller.  Concretely, scoring one job with a successful fetch performs a
non-empty list of writes. -/
theorem C5_counterexample_scoreJob_persists :
    (scoreJob "user-1" jobPythonDjango (.ok emptyRows) true { y := 2024, m := 0 }).2 ≠ [] := by
  simp [scoreJob]

/-- C5 (amended): for a fixed clock, `scoreJob`'s returned breakdown is a
deterministic function of the job and the fetched profile rows
(`scoreJobPure`), and its single side effect is upserting exactly the
returned breakdown into the job-score store. -/
theorem C5_deterministic_single_write (userId : String) (job : Job) (rows : ProfileRows)
    (now : Ym) :
    (scoreJob userId job (.ok rows) true now).1 = scoreJobPure job rows now ∧
    (scoreJob userId job (.ok rows) true now).2 =
      [jobScoreWriteOf userId job (scoreJob userId job (.ok rows) true now).1] := by
  constructor <;> simp [scoreJob]

theorem jobKeyEq_self (data : ScrapedJob) :
    jobKeyEq data data.source data.externalId = true := by
  simp [jobKeyEq]

theorem length_replaceFirstJob (data : ScrapedJob) (db : List ScrapedJob) :
    (replaceFirstJob data db).length = db.length := by
  induction db with
  | nil => rfl
  | cons r rest ih =>
    by_cases h : jobKeyEq r data.source data.externalId
    · simp [replaceFirstJob, h]
    · simp [replaceFirstJob, h, ih]

theorem countKey_replaceFirstJob (data : ScrapedJob) (db : List ScrapedJob) :
    countKey (replaceFirstJob data db) data.source data.externalId =
      countKey db data.source data.externalId := by
  induction db with
  | nil => rfl
  | cons r rest ih =>
    simp only [countKey] at ih ⊢
    by_cases h : jobKeyEq r data.source data.externalId = true
    · simp [replaceFirstJob, h, List.filter_cons, jobKeyEq_self]
    · simp [replaceFirstJob, h, List.filter_cons, ih]

theorem countKey_append_one (data : ScrapedJob) (db : List ScrapedJob) :
    countKey (db ++ [data]) data.source data.externalId =
      countKey db data.source data.externalId + 1 := by
  simp [countKey, List.filter_append, jobKeyEq_self]

theorem any_key_iff (db : List ScrapedJob) (s e : String) :
    (db.any (fun r => jobKeyEq r s e) = true) ↔ countKey db s e ≠ 0 := by
  simp only [countKey, List.any_eq_true, Ne, List.length_eq_zero, List.filter_eq_nil_iff]
  push_neg
  constructor
  · rintro ⟨x, hx, hpx⟩; exact ⟨x, hx, hpx⟩
  · rintro ⟨x, hx, hpx⟩; exact ⟨x, hx, hpx⟩

theorem findFirstJob_isNone_iff (db : List ScrapedJob) (s e : String) :
    ((findFirstJob db s e).isNone = true) ↔ countKey db s e = 0 := by
  simp only [findFirstJob, Option.isNone_iff_eq_none, List.find?_eq_none, countKey,
    List.length_eq_zero, List.filter_eq_nil_iff]

theorem countKey_upsert (data : ScrapedJob) (db : List ScrapedJob) :
    countKey (upsertFromScraper data db) data.source data.externalId =
      if countKey db data.source data.externalId = 0 then 1
      else countKey db data.source data.externalId := by
  by_cases h : db.any (fun r => jobKeyEq r data.source data.externalId) = true
  · have hne := (any_key_iff db data.source data.externalId).mp h
    simp [upsertFromScraper, h, countKey_replaceFirstJob, hne]
  · have hz : countKey db data.source data.externalId = 0 := by
      by_contra hc
      exact h ((any_key_iff db data.source data.externalId).mpr hc)
    simp only [upsertFromScraper, h, if_false, Bool.false_eq_true]
    simp [countKey_append_one, hz]

/-- C7: processing the same `(source, externalId)` posting twice (starting
from a store with at most one row under that key) leaves exactly one stored
row: the second `processJob` finds the existing record, the upsert takes the
update branch (the store does not grow), and `isNew = false` is reported, so
the run counts an update, not a new job. -/
theorem C7_processJob_idempotent (job : ScrapedJob) (db : List ScrapedJob)
    (hclean : countKey db job.source job.externalId ≤ 1) :
    (processJob job (processJob job db).2).1 = false ∧
    countKey (processJob job (processJob job db).2).2 job.source job.externalId = 1 ∧
    (processJob job (processJob job db).2).2.length = (processJob job db).2.length := by
  have h1 : countKey (processJob job db).2 job.source job.externalId = 1 := by
    show countKey (upsertFromScraper job db) job.source job.externalId = 1
    rw [countKey_upsert]
    rcases Nat.eq_zero_or_pos (countKey db job.source job.externalId) with h | h
    · simp [h]
    · have : countKey db job.source job.externalId = 1 := le_antisymm hclean h
      simp [this]
  refine ⟨?_, ?_, ?_⟩
  · show (findFirstJob (processJob job db).2 job.source job.externalId).isNone = false
    by_contra hc
    have : (findFirstJob (processJob job db).2 job.source job.externalId).isNone = true := by
      revert hc
      cases (findFirstJob (processJob job db).2 job.source job.externalId).isNone <;> simp
    rw [findFirstJob_isNone_iff] at this
    omega
  · show countKey (upsertFromScraper job (processJob job db).2) job.source job.externalId = 1
    rw [countKey_upsert, h1]
    simp
  · show (upsertFromScraper job (processJob job db).2).length = (processJob job db).2.length
    have hany : (processJob job db).2.any (fun r => jobKeyEq r job.source job.externalId) = true := by
      rw [any_key_iff, h1]
      simp
    simp [upsertFromScraper, hany, length_replaceFirstJob]

/-- Witness for C7 at a concrete job and the empty store. -/
theorem C7_processJob_idempotent_witness :
    (processJob sampleScrapedJob (processJob sampleScrapedJob []).2).1 = false ∧
    countKey (processJob sampleScrapedJob (processJob sampleScrapedJob []).2).2
      sampleScrapedJob.source sampleScrapedJob.externalId = 1 ∧
    (processJob sampleScrapedJob (processJob sampleScrapedJob []).2).2.length =
      (processJob sampleScrapedJob []).2.length :=
  C7_processJob_idempotent sampleScrapedJob [] (by decide)

theorem processJobsLoop_counts_le (procJob : ProcessFn) (jobs : List ScrapedJob)
    (db : List ScrapedJob) :
    (processJobsLoop procJob jobs db).1 + (processJobsLoop procJob jobs db).2.1 ≤ jobs.length := by
  induction jobs generalizing db with
  | nil => simp [processJobsLoop]
  | cons j rest ih =>
    cases hp : procJob j db with
    | error e =>
      have := ih db
      simp only [processJobsLoop, hp, List.length_cons]
      omega
    | ok p =>
      obtain ⟨isNew, db2⟩ := p
      have := ih db2
      cases isNew <;> simp only [processJobsLoop, hp, List.length_cons] <;>
        simp <;> omega

/-- C8: for every `runScraper` invocation that succeeds,
`jobsNew + jobsUpdated ≤ jobsFound`, where `jobsFound` counts every job the
adapter returned (including those whose individual processing threw); a
per-job processing failure is caught, increments neither counter, and the
run still reports `success = true` with `jobsFound` equal to the full
adapter list. -/
theorem C8_counters_bounded (procJob : ProcessFn) (scraper : Scraper) (now : Int)
    (hm : HealthMap) (db : List ScrapedJob) :
    ((runScraper procJob scraper now hm db).1.success = true →
      (runScraper procJob scraper now hm db).1.jobsNew +
        (runScraper procJob scraper now hm db).1.jobsUpdated ≤
        (runScraper procJob scraper now hm db).1.jobsFound) ∧
    (∀ jobs, scraper.scrapeOutcome = .ok jobs →
      (runScraper procJob scraper now hm db).1.success = true ∧
      (runScraper procJob scraper now hm db).1.jobsFound = jobs.length) ∧
    (∀ j rest db0 e, procJob j db0 = .error e →
      processJobsLoop procJob (j :: rest) db0 = processJobsLoop procJob rest db0) := by
  refine ⟨?_, ?_, ?_⟩
  · intro _
    cases ho : scraper.scrapeOutcome with
    | error e => simp [runScraper, ho]
    | ok jobs =>
      simp only [runScraper, ho]
      exact processJobsLoop_counts_le procJob jobs db
  · intro jobs ho
    simp [runScraper, ho]
  · intro j rest db0 e hp
    simp [processJobsLoop, hp]

/-- Witness for C8: a successful run over one job from the empty store. -/
theorem C8_counters_bounded_witness :
    (runScraper processJobE okScraper 0 [] []).1.jobsNew +
      (runScraper processJobE okScraper 0 [] []).1.jobsUpdated ≤
      (runScraper processJobE okScraper 0 [] []).1.jobsFound ∧
    (runScraper processJobE okScraper 0 [] []).1.success = true :=
  ⟨(C8_counters_bounded processJobE okScraper 0 [] []).1 (by decide),
   ((C8_counters_bounded processJobE okScraper 0 [] []).2.1 [sampleScrapedJob] rfl).1⟩

theorem lookupHealth_setHealth (m : HealthMap) (k : String) (v w : SourceHealth)
    (h : lookupHealth m k = some w) :
    lookupHealth (setHealth m k v) k = some v := by
  induction m with
  | nil => simp [lookupHealth, List.lookup] at h
  | cons p rest ih =>
    obtain ⟨a, b⟩ := p
    by_cases hk : a = k
    · subst hk
      have hmap : setHealth ((a, b) :: rest) a v = (a, v) :: setHealth rest a v := by
        simp [setHealth]
      rw [hmap]
      simp [lookupHealth, List.lookup]
    · have hmap : setHealth ((a, b) :: rest) k v = (a, b) :: setHealth rest k v := by
        simp [setHealth, hk]
      rw [hmap]
      have hka : (k == a) = false := by
        simp only [beq_eq_false_iff_ne, Ne]
        exact fun hh => hk hh.symm
      have h' : lookupHealth rest k = some w := by
        simp only [lookupHealth, List.lookup, hka] at h
        exact h
      simp only [lookupHealth, List.lookup, hka]
      exact ih h'

/-- C3: from the initial health state (enabled, not blocked, zero
consecutive failures), the first two failed runs return no new-block flag,
the third sets `isBlocked` and `blockedAt := now` and returns the flag;
while blocked the availability check reports false (so a 4th scheduling
attempt is skipped), until the 24-hour window elapses — whereupon the check
reports true and resets `consecutiveFailures` to 0 and clears `blockedAt` —
or a manual unblock performs the same reset. -/
theorem C3_third_failure_blocks (s : String) (m : HealthMap) (t1 t2 t3 : Int)
    (hm : lookupHealth m s = some (initialHealth s true)) :
    ∃ m1 m2 m3 h3,
      updateSourceHealth m s false t1 = (m1, false) ∧
      updateSourceHealth m1 s false t2 = (m2, false) ∧
      updateSourceHealth m2 s false t3 = (m3, true) ∧
      lookupHealth m3 s = some h3 ∧
      h3.enabled = true ∧ h3.isBlocked = true ∧ h3.blockedAt = some t3 ∧
      h3.consecutiveFailures = 3 ∧
      (∀ t, t - t3 < blockDuration → (isSourceAvailable m3 s t).1 = false) ∧
      (∀ t, blockDuration ≤ t - t3 →
        (isSourceAvailable m3 s t).1 = true ∧
        lookupHealth (isSourceAvailable m3 s t).2 s =
          some { h3 with isBlocked := false, blockedAt := none, consecutiveFailures := 0 }) ∧
      unblockSource h3 =
        { h3 with isBlocked := false, blockedAt := none, consecutiveFailures := 0 } := by
  have e1 : updateSourceHealth m s false t1 = (setHealth m s (failedHealth s 1 t1), false) := by
    simp [updateSourceHealth, hm, healthUpdate, initialHealth, failedHealth,
      maxConsecutiveFailures]
  have l1 : lookupHealth (setHealth m s (failedHealth s 1 t1)) s = some (failedHealth s 1 t1) :=
    lookupHealth_setHealth m s _ _ hm
  have e2 : updateSourceHealth (setHealth m s (failedHealth s 1 t1)) s false t2 =
      (setHealth (setHealth m s (failedHealth s 1 t1)) s (failedHealth s 2 t2), false) := by
    simp only [updateSourceHealth, l1]
    simp [healthUpdate, failedHealth, maxConsecutiveFailures]
  have l2 : lookupHealth (setHealth (setHealth m s (failedHealth s 1 t1)) s
      (failedHealth s 2 t2)) s = some (failedHealth s 2 t2) :=
    lookupHealth_setHealth _ s _ _ l1
  have e3 : updateSourceHealth (setHealth (setHealth m s (failedHealth s 1 t1)) s
      (failedHealth s 2 t2)) s false t3 =
      (setHealth (setHealth (setHealth m s (failedHealth s 1 t1)) s (failedHealth s 2 t2)) s
        (blockedHealth s t3), true) := by
    simp only [updateSourceHealth, l2]
    simp [healthUpdate, failedHealth, blockedHealth, maxConsecutiveFailures]
  have l3 : lookupHealth (setHealth (setHealth (setHealth m s (failedHealth s 1 t1)) s
      (failedHealth s 2 t2)) s (blockedHealth s t3)) s = some (blockedHealth s t3) :=
    lookupHealth_setHealth _ s _ _ l2
  refine ⟨_, _, _, blockedHealth s t3, e1, e2, e3, l3, rfl, rfl, rfl, rfl, ?_, ?_, rfl⟩
  · intro t ht
    have hnot : ¬ (t - t3 ≥ blockDuration) := by omega
    simp only [isSourceAvailable, l3]
    simp [sourceAvailability, blockedHealth, hnot]
  · intro t ht
    have hge : t - t3 ≥ blockDuration := by omega
    have e4 : isSourceAvailable (setHealth (setHealth (setHealth m s (failedHealth s 1 t1)) s
        (failedHealth s 2 t2)) s (blockedHealth s t3)) s t =
        (true, setHealth (setHealth (setHealth (setHealth m s (failedHealth s 1 t1)) s
          (failedHealth s 2 t2)) s (blockedHealth s t3)) s
          { blockedHealth s t3 with isBlocked := false, blockedAt := none,
                                    consecutiveFailures := 0 }) := by
      simp only [isSourceAvailable, l3]
      simp [sourceAvailability, blockedHealth, hge]
    rw [e4]
    exact ⟨rfl, lookupHealth_setHealth _ s _ _ l3⟩

/-- Witness for C3 at a concrete source and times. -/
theorem C3_third_failure_blocks_witness :
    ∃ m1 m2 m3 h3,
      updateSourceHealth [("indeed", initialHealth "indeed" true)] "indeed" false 0 =
        (m1, false) ∧
      updateSourceHealth m1 "indeed" false 1 = (m2, false) ∧
      updateSourceHealth m2 "indeed" false 2 = (m3, true) ∧
      lookupHealth m3 "indeed" = some h3 ∧
      h3.enabled = true ∧ h3.isBlocked = true ∧ h3.blockedAt = some 2 ∧
      h3.consecutiveFailures = 3 ∧
      (∀ t, t - 2 < blockDuration → (isSourceAvailable m3 "indeed" t).1 = false) ∧
      (∀ t, blockDuration ≤ t - 2 →
        (isSourceAvailable m3 "indeed" t).1 = true ∧
        lookupHealth (isSourceAvailable m3 "indeed" t).2 "indeed" =
          some { h3 with isBlocked := false, blockedAt := none, consecutiveFailures := 0 }) ∧
      unblockSource h3 =
        { h3 with isBlocked := false, blockedAt := none, consecutiveFailures := 0 } :=
  C3_third_failure_blocks "indeed" [("indeed", initialHealth "indeed" true)] 0 1 2 (by rfl)

theorem runScraper_source (procJob : ProcessFn) (sc : Scraper) (now : Int)
    (hm : HealthMap) (db : List ScrapedJob) :
    (runScraper procJob sc now hm db).1.source = sc.name := by
  cases h : sc.scrapeOutcome <;> simp [runScraper, h]

theorem runSelected_sources (procJob : ProcessFn) (scrapers : List Scraper) (now : Int)
    (hm : HealthMap) (db : List ScrapedJob) :
    (runSelected procJob scrapers now hm db).1.map (fun r => r.source) =
      scrapers.map (fun sc => sc.name) := by
  induction scrapers generalizing hm db with
  | nil => simp [runSelected]
  | cons sc rest ih =>
    simp [runSelected, runScraper_source, ih]

/-- C4: a thrown adapter is contained inside `runScraper`: the returned
`ScraperResult` has `success = false`, carries the error message, and has
zero `jobsFound`/`jobsNew`/`jobsUpdated`; and `scrapeAll` — a total
function, so no exception propagates out of a batch — still produces one
result per scheduled source, in order, so every other source in the batch
keeps its own result. -/
theorem C4_adapter_failure_contained (procJob : ProcessFn) (registry : List (String × Scraper))
    (hm : HealthMap) (sources : Option (List String)) (now : Int) (db : List ScrapedJob) :
    (∀ sc e hm0 db0, sc.scrapeOutcome = .error e →
      (runScraper procJob sc now hm0 db0).1 =
        { source := sc.name, success := false, jobsFound := 0, jobsNew := 0, jobsUpdated := 0,
          error := some e, blocked := some (updateSourceHealth hm0 sc.name false now).2 }) ∧
    (scrapeAll procJob registry hm sources now db).1.results.map (fun r => r.source) =
      (selectScrapers registry hm sources now).1.map (fun sc => sc.name) := by
  constructor
  · intro sc e hm0 db0 he
    simp [runScraper, he]
  · simp only [scrapeAll]
    exact runSelected_sources procJob (selectScrapers registry hm sources now).1 now
      (selectScrapers registry hm sources now).2 db

/-- Witness for C4 at a concrete throwing adapter. -/
theorem C4_adapter_failure_contained_witness :
    (runScraper processJobE failingScraper 0 [] []).1 =
      { source := failingScraper.name, success := false, jobsFound := 0, jobsNew := 0,
        jobsUpdated := 0, error := some "boom",
        blocked := some (updateSourceHealth [] failingScraper.name false 0).2 } :=
  (C4_adapter_failure_contained processJobE [] [] none 0 []).1 failingScraper "boom" [] [] rfl

/-- C9 claims a disabled source is never scheduled by `scrapeAll`,
regardless of block state.  The code violates this: when a disabled source
is blocked and its 24-hour window has elapsed, `isSourceAvailable`
auto-unblocks and returns `true` without rechecking `enabled`, and the
explicit-sources branch of `scrapeAll` never consults `scraper.enabled` —
so the disabled source runs.  This theorem evaluates the embedded code at
that failing input: the source is disabled, yet it contributes a scheduled
run result. -/
theorem C9_disabled_blocked_elapsed_is_scheduled :
    disabledScraper.enabled = false ∧
    disabledBlockedHealth.enabled = false ∧
    ((scrapeAll processJobE [("indeed", disabledScraper)] [("indeed", disabledBlockedHealth)]
        (some ["indeed"]) blockDuration []).1.results.map (fun r => r.source)) = ["indeed"] := by
  refine ⟨rfl, rfl, ?_⟩
  decide

theorem lookupHealth_eq_none (m : HealthMap) (s : String) (h : ∀ p ∈ m, p.1 ≠ s) :
    lookupHealth m s = none := by
  induction m with
  | nil => rfl
  | cons p rest ih =>
    have hp : p.1 ≠ s := h p (List.mem_cons_self p rest)
    have hs : (s == p.1) = false := by
      simp only [beq_eq_false_iff_ne, Ne]
      exact fun hh => hp hh.symm
    have ih' := ih (fun q hq => h q (List.mem_cons_of_mem p hq))
    simpa [lookupHealth, List.lookup, hs] using ih'

/-- C10: in the explicit-sources branch of `scrapeAll`, a requested name is
lowercased for the scraper-registry lookup but passed unchanged to the
availability check, whose health-map lookup is case-sensitive.  Since all
health keys are all-lowercase scraper names, a requested name that is not
all-lowercase misses the health map and the source is silently excluded
(no results entry), even though its scraper is registered, enabled and not
blocked — while the all-lowercase spelling of the same name is scheduled. -/
theorem C10_case_sensitive_availability (procJob : ProcessFn)
    (registry : List (String × Scraper)) (hm : HealthMap) (s low : String) (sc : Scraper)
    (h : SourceHealth) (now : Int) (db : List ScrapedJob)
    (hlow : jsToLower s = low)
    (hne : low ≠ s)
    (hlowfix : jsToLower low = low)
    (hkeys : ∀ p ∈ hm, jsToLower p.1 = p.1)
    (hreg : List.lookup low registry = some sc)
    (hh : lookupHealth hm low = some h)
    (hen : h.enabled = true) (hbl : h.isBlocked = false) :
    lookupHealth hm s = none ∧
    (scrapeAll procJob registry hm (some [s]) now db).1.results = [] ∧
    (scrapeAll procJob registry hm (some [low]) now db).1.results.map (fun r => r.source) =
      [sc.name] := by
  have hmiss : lookupHealth hm s = none := by
    apply lookupHealth_eq_none
    intro p hp hps
    apply hne
    have hk := hkeys p hp
    rw [hps] at hk
    rw [← hlow]
    exact hk
  refine ⟨hmiss, ?_, ?_⟩
  · have hsel : selectScrapers registry hm (some [s]) now = ([], hm) := by
      simp [selectScrapers, hlow, hreg, isSourceAvailable, hmiss]
    simp [scrapeAll, hsel, runSelected]
  · have hav : isSourceAvailable hm low now = (true, setHealth hm low h) := by
      simp [isSourceAvailable, hh, sourceAvailability, hbl, hen]
    have hsel : selectScrapers registry hm (some [low]) now = ([sc], setHealth hm low h) := by
      simp [selectScrapers, hlowfix, hreg, hav]
    simp [scrapeAll, hsel, runSelected, runScraper_source]

/-- Witness for C10: requesting "LinkedIn" is silently excluded while
"linkedin" is scheduled. -/
theorem C10_case_sensitive_availability_witness :
    lookupHealth [("linkedin", initialHealth "linkedin" true)] "LinkedIn" = none ∧
    (scrapeAll processJobE [("linkedin", linkedinScraper)]
        [("linkedin", initialHealth "linkedin" true)]
        (some ["LinkedIn"]) 0 []).1.results = [] ∧
    (scrapeAll processJobE [("linkedin", linkedinScraper)]
        [("linkedin", initialHealth "linkedin" true)]
        (some ["linkedin"]) 0 []).1.results.map (fun r => r.source) = [linkedinScraper.name] :=
  C10_case_sensitive_availability processJobE [("linkedin", linkedinScraper)]
    [("linkedin", initialHealth "linkedin" true)] "LinkedIn" "linkedin" linkedinScraper
    (initialHealth "linkedin" true) 0 [] (by decide) (by decide) (by decide)
    (by decide) rfl rfl rfl rfl

theorem foldl_partition (p : String → Bool) (l : List String) (a b : List String) :
    l.foldl (fun acc r => if p r then (acc.1 ++ [r], acc.2) else (acc.1, acc.2 ++ [r])) (a, b) =
      (a ++ l.filter p, b ++ l.filter (fun r => !(p r))) := by
  induction l generalizing a b with
  | nil => simp
  | cons x xs ih =>
    by_cases h : p x
    · simp [List.foldl_cons, h, ih, List.filter_cons]
    · simp [List.foldl_cons, h, ih, List.filter_cons]

theorem calculateSkillMatch_empty (job : Job) (userSkills : List Skill)
    (h : parseSkillsString job.skillsRequired = []) :
    calculateSkillMatch job userSkills =
      { score := 75, matchedSkills := [], missingSkills := [] } := by
  simp [calculateSkillMatch, h]

theorem calculateSkillMatch_formula (job : Job) (userSkills : List Skill)
    (h : parseSkillsString job.skillsRequired ≠ []) :
    calculateSkillMatch job userSkills =
      { score := (jsRound (100 *
          (((parseSkillsString job.skillsRequired).filter (fun r =>
              skillMatches (normalizeSkill r)
                (userSkills.map (fun s => normalizeSkill s.name)))).length : ℚ) /
          ((parseSkillsString job.skillsRequired).length : ℚ)) : ℚ),
        matchedSkills := (parseSkillsString job.skillsRequired).filter (fun r =>
          skillMatches (normalizeSkill r) (userSkills.map (fun s => normalizeSkill s.name))),
        missingSkills := (parseSkillsString job.skillsRequired).filter (fun r =>
          !(skillMatches (normalizeSkill r)
              (userSkills.map (fun s => normalizeSkill s.name)))) } := by
  have hlen : (parseSkillsString job.skillsRequired).length ≠ 0 := by
    simpa [List.length_eq_zero] using h
  simp only [calculateSkillMatch, hlen, if_false]
  rw [foldl_partition]
  have harg : ∀ m n : ℚ, m / n * 100 = 100 * m / n := by
    intro m n; ring
  simp [harg]

theorem skillMatches_iff (sk : String) (names : List String) :
    skillMatches sk names = true ↔
      ∃ u ∈ names, u = sk ∨ u ∈ (SKILL_SYNONYMS.lookup sk).getD [] ∨
        jsIncludes u sk = true ∨ jsIncludes sk u = true ∨ levenshteinDistance sk u ≤ 2 := by
  unfold skillMatches
  constructor
  · intro hsm
    rw [Bool.or_eq_true, Bool.or_eq_true] at hsm
    rcases hsm with (hA | hB) | hC
    · exact ⟨sk, List.elem_iff.mp hA, Or.inl rfl⟩
    · rw [List.any_eq_true] at hB
      obtain ⟨syn, hsyn, hcont⟩ := hB
      exact ⟨syn, List.elem_iff.mp hcont, Or.inr (Or.inl hsyn)⟩
    · rw [List.any_eq_true] at hC
      obtain ⟨u, hu, hf⟩ := hC
      rw [Bool.or_eq_true, Bool.or_eq_true] at hf
      rcases hf with (h1 | h2) | h3
      · exact ⟨u, hu, Or.inr (Or.inr (Or.inl h1))⟩
      · exact ⟨u, hu, Or.inr (Or.inr (Or.inr (Or.inl h2)))⟩
      · exact ⟨u, hu, Or.inr (Or.inr (Or.inr (Or.inr (of_decide_eq_true h3))))⟩
  · rintro ⟨u, hu, hcase⟩
    rw [Bool.or_eq_true, Bool.or_eq_true]
    rcases hcase with heq | hsyn | h1 | h2 | h3
    · subst heq
      exact Or.inl (Or.inl (List.elem_iff.mpr hu))
    · refine Or.inl (Or.inr ?_)
      rw [List.any_eq_true]
      exact ⟨u, hsyn, List.elem_iff.mpr hu⟩
    · refine Or.inr ?_
      rw [List.any_eq_true]
      refine ⟨u, hu, ?_⟩
      rw [Bool.or_eq_true, Bool.or_eq_true]
      exact Or.inl (Or.inl h1)
    · refine Or.inr ?_
      rw [List.any_eq_true]
      refine ⟨u, hu, ?_⟩
      rw [Bool.or_eq_true, Bool.or_eq_true]
      exact Or.inl (Or.inr h2)
    · refine Or.inr ?_
      rw [List.any_eq_true]
      refine ⟨u, hu, ?_⟩
      rw [Bool.or_eq_true, Bool.or_eq_true]
      exact Or.inr (decide_eq_true h3)

/-- C6: with an empty parsed required-skills list, `calculateSkillMatch`
returns score 75 with empty matched/missing lists; otherwise the score is
`round(100·matched/required)`, where `matchedSkills`/`missingSkills`
partition the required list by the match predicate, and a required skill is
matched iff its normalized form matches some normalized user skill by
equality, synonym-table lookup, substring containment either way, or
Levenshtein distance at most 2; in particular user skills `["Python"]`
against required `["Python", "Django"]` give score 50,
matched `["Python"]`, missing `["Django"]`. -/
theorem C6_skill_matching (job : Job) (userSkills : List Skill) :
    (parseSkillsString job.skillsRequired = [] →
      calculateSkillMatch job userSkills =
        { score := 75, matchedSkills := [], missingSkills := [] }) ∧
    (parseSkillsString job.skillsRequired ≠ [] →
      calculateSkillMatch job userSkills =
        { score := (jsRound (100 *
            (((parseSkillsString job.skillsRequired).filter (fun r =>
                skillMatches (normalizeSkill r)
                  (userSkills.map (fun s => normalizeSkill s.name)))).length : ℚ) /
            ((parseSkillsString job.skillsRequired).length : ℚ)) : ℚ),
          matchedSkills := (parseSkillsString job.skillsRequired).filter (fun r =>
            skillMatches (normalizeSkill r) (userSkills.map (fun s => normalizeSkill s.name))),
          missingSkills := (parseSkillsString job.skillsRequired).filter (fun r =>
            !(skillMatches (normalizeSkill r)
                (userSkills.map (fun s => normalizeSkill s.name)))) }) ∧
    (∀ sk names, skillMatches sk names = true ↔
      ∃ u ∈ names, u = sk ∨ u ∈ (SKILL_SYNONYMS.lookup sk).getD [] ∨
        jsIncludes u sk = true ∨ jsIncludes sk u = true ∨ levenshteinDistance sk u ≤ 2) ∧
    calculateSkillMatch jobPythonDjango [{ name := "Python" }] =
      { score := 50, matchedSkills := ["Python"], missingSkills := ["Django"] } := by
  refine ⟨calculateSkillMatch_empty job userSkills,
    calculateSkillMatch_formula job userSkills, skillMatches_iff, ?_⟩
  rw [calculateSkillMatch_formula jobPythonDjango [{ name := "Python" }] (by decide)]
  have hmat : (parseSkillsString jobPythonDjango.skillsRequired).filter (fun r =>
      skillMatches (normalizeSkill r)
        (([{ name := "Python" }] : List Skill).map (fun s => normalizeSkill s.name))) =
      ["Python"] := by decide
  have hmiss : (parseSkillsString jobPythonDjango.skillsRequired).filter (fun r =>
      !(skillMatches (normalizeSkill r)
          (([{ name := "Python" }] : List Skill).map (fun s => normalizeSkill s.name)))) =
      ["Django"] := by decide
  have hlen : (parseSkillsString jobPythonDjango.skillsRequired).length = 2 := by decide
  rw [hmat, hmiss, hlen]
  have hscore : jsRound (100 * ((["Python"] : List String).length : ℚ) / ((2 : ℕ) : ℚ)) = 50 := by
    apply jsRound_eq_of <;> norm_num
  rw [hscore]
  norm_num

/-- Witness for C6 at the Python/Django scenario (non-empty branch) and a
job with no skills field (empty branch). -/
theorem C6_skill_matching_witness :
    calculateSkillMatch { jobPythonDjango with skillsRequired := none } [] =
      { score := 75, matchedSkills := [], missingSkills := [] } ∧
    calculateSkillMatch jobPythonDjango [{ name := "Python" }] =
      { score := 50, matchedSkills := ["Python"], missingSkills := ["Django"] } :=
  ⟨(C6_skill_matching { jobPythonDjango with skillsRequired := none } []).1 (by decide),
   (C6_skill_matching jobPythonDjango [{ name := "Python" }]).2.2.2⟩

theorem experienceMonths_nonneg (now : Ym) (e : Experience) : 0 ≤ experienceMonths now e := by
  unfold experienceMonths
  split
  · exact Int.le_refl 0
  · dsimp only
    split
    · exact Int.le_refl 0
    · split
      · omega
      · exact Int.le_refl 0

theorem totalYears_nonneg (exps : List Experience) (now : Ym) :
    0 ≤ calculateTotalYears exps now := by
  unfold calculateTotalYears
  have hfold : ∀ (l : List Experience) (acc : Int), 0 ≤ acc →
      0 ≤ l.foldl (fun a e => a + experienceMonths now e) acc := by
    intro l
    induction l with
    | nil => intro acc h; simpa using h
    | cons e rest ih =>
      intro acc h
      simp only [List.foldl_cons]
      exact ih _ (by have := experienceMonths_nonneg now e; omega)
  have hm : (0:Int) ≤ List.foldl (fun a e => a + experienceMonths now e) 0 exps :=
    hfold exps 0 (le_refl 0)
  have hq : (0:ℚ) ≤ ((List.foldl (fun a e => a + experienceMonths now e) 0 exps : Int) : ℚ) / 12 * 10 := by
    have : (0:ℚ) ≤ ((List.foldl (fun a e => a + experienceMonths now e) 0 exps : Int) : ℚ) := by
      exact_mod_cast hm
    positivity
  have hr := jsRound_nonneg _ hq
  have : (0:ℚ) ≤ (jsRound (((List.foldl (fun a e => a + experienceMonths now e) 0 exps : Int) : ℚ) / 12 * 10) : ℚ) := by
    exact_mod_cast hr
  positivity

theorem skillScore_bounds (job : Job) (us : List Skill) :
    0 ≤ (calculateSkillMatch job us).score ∧ (calculateSkillMatch job us).score ≤ 100 := by
  by_cases h : parseSkillsString job.skillsRequired = []
  · rw [calculateSkillMatch_empty job us h]
    norm_num
  · rw [calculateSkillMatch_formula job us h]
    dsimp only
    have hn : 0 < ((parseSkillsString job.skillsRequired).length : ℚ) := by
      have := List.length_pos.mpr h
      exact_mod_cast this
    have hm : (((parseSkillsString job.skillsRequired).filter (fun r =>
        skillMatches (normalizeSkill r) (us.map (fun s => normalizeSkill s.name)))).length : ℚ) ≤
        ((parseSkillsString job.skillsRequired).length : ℚ) := by
      exact_mod_cast List.length_filter_le _ _
    have hm0 : (0:ℚ) ≤ (((parseSkillsString job.skillsRequired).filter (fun r =>
        skillMatches (normalizeSkill r) (us.map (fun s => normalizeSkill s.name)))).length : ℚ) := by
      positivity
    have h0 : (0:ℚ) ≤ 100 * (((parseSkillsString job.skillsRequired).filter (fun r =>
        skillMatches (normalizeSkill r) (us.map (fun s => normalizeSkill s.name)))).length : ℚ) /
        ((parseSkillsString job.skillsRequired).length : ℚ) := by
      positivity
    have h1 : 100 * (((parseSkillsString job.skillsRequired).filter (fun r =>
        skillMatches (normalizeSkill r) (us.map (fun s => normalizeSkill s.name)))).length : ℚ) /
        ((parseSkillsString job.skillsRequired).length : ℚ) ≤ 100 := by
      rw [div_le_iff hn]
      nlinarith
    constructor
    · exact_mod_cast jsRound_nonneg _ h0
    · exact_mod_cast jsRound_le_100 _ h1

theorem locScore_bounds (job : Job) (targets : Option JobTarget) :
    0 ≤ (calculateLocationMatch job targets).score ∧
    (calculateLocationMatch job targets).score ≤ 100 := by
  unfold calculateLocationMatch
  dsimp only
  split_ifs <;> norm_num

theorem expScore_bounds (job : Job) (exps : List Experience) (now : Ym) :
    0 ≤ (calculateExperienceMatch job exps now).score ∧
    (calculateExperienceMatch job exps now).score ≤ 100 := by
  have hty := totalYears_nonneg exps now
  unfold calculateExperienceMatch
  dsimp only
  split_ifs <;> try norm_num
  all_goals try linarith
  all_goals
    rename_i hmaxt hcond hnlt
    rcases hmx : job.experienceMax with _ | v
    · rw [hmx] at hmaxt
      simp [numTruthy] at hmaxt
    · rw [hmx] at hcond
      rw [show Option.all (fun mx => decide (calculateTotalYears exps now ≤ mx)) (some v) =
            decide (calculateTotalYears exps now ≤ v) from rfl] at hcond
      rw [Bool.and_eq_true, decide_eq_true_eq, decide_eq_true_eq] at hcond
      have hA := le_of_not_lt hnlt
      have hB : v < calculateTotalYears exps now := by
        by_contra hc
        exact hcond ⟨hA, le_of_not_lt hc⟩
      simp only [Option.getD_some]
      linarith

theorem salaryScore_bounds (job : Job) (targets : Option JobTarget)
    (hmin : ∀ t, targets = some t → ∀ v, t.minSalary = some v → 0 ≤ v) :
    0 ≤ (calculateSalaryMatch job targets).score ∧
    (calculateSalaryMatch job targets).score ≤ 100 := by
  rcases targets with _ | t
  · unfold calculateSalaryMatch
    dsimp only
    split_ifs <;> norm_num
  · rcases hms : t.minSalary with _ | v
    · unfold calculateSalaryMatch
      dsimp only
      rw [hms]
      split_ifs <;> norm_num
    · have hv0 : 0 ≤ v := hmin t rfl v hms
      unfold calculateSalaryMatch
      dsimp only
      rw [hms]
      by_cases hv : v = 0
      · subst hv
        simp [numTruthy]
        split_ifs <;> norm_num
      · have hvpos : 0 < v := lt_of_le_of_ne hv0 (Ne.symm hv)
        have hnt : ¬ ((!(numTruthy (some v))) = true) := by simp [numTruthy, hv]
        rw [if_neg hnt]
        simp only [Option.getD_some]
        split_ifs with h1 h2 h3
        · norm_num
        · have hlt : job.salaryMax.getD 0 < v := by
            rw [Bool.and_eq_true, decide_eq_true_eq] at h2
            exact h2.2
          have hga : 0 ≤ (v - job.salaryMax.getD 0) / v * 100 := by
            have ha : 0 ≤ v - job.salaryMax.getD 0 := by linarith
            have hb := div_nonneg ha (le_of_lt hvpos)
            nlinarith
          constructor
          · exact le_max_left 0 _
          · exact max_le (by norm_num) (by linarith)
        · norm_num
        · norm_num

/-- C1: for every job and (validated) user-profile input — stored salary
targets are nonnegative, as enforced by the `@Min(0)` DTO validation —
`scoreJob` returns a breakdown whose `overallScore` equals
`round(0.30·semantic + 0.30·skills + 0.20·experience + 0.10·salary +
0.10·location)` over the returned component scores, and every component
score as well as `overallScore` lies between 0 and 100 inclusive. -/
theorem C1_overall_weighted_and_bounded (userId : String) (job : Job)
    (fetched : Except String ProfileRows) (persistOk : Bool) (now : Ym)
    (hmin : ∀ rows, fetched = Except.ok rows → ∀ t, rows.jobTargets = some t →
      ∀ v, t.minSalary = some v → 0 ≤ v) :
    (scoreJob userId job fetched persistOk now).1.overallScore =
      jsRound ((scoreJob userId job fetched persistOk now).1.semanticScore * (3/10) +
        (scoreJob userId job fetched persistOk now).1.skillMatchScore * (3/10) +
        (scoreJob userId job fetched persistOk now).1.experienceMatchScore * (2/10) +
        (scoreJob userId job fetched persistOk now).1.salaryMatchScore * (1/10) +
        (scoreJob userId job fetched persistOk now).1.locationMatchScore * (1/10)) ∧
    (0 ≤ (scoreJob userId job fetched persistOk now).1.overallScore ∧
      (scoreJob userId job fetched persistOk now).1.overallScore ≤ 100) ∧
    (0 ≤ (scoreJob userId job fetched persistOk now).1.semanticScore ∧
      (scoreJob userId job fetched persistOk now).1.semanticScore ≤ 100) ∧
    (0 ≤ (scoreJob userId job fetched persistOk now).1.skillMatchScore ∧
      (scoreJob userId job fetched persistOk now).1.skillMatchScore ≤ 100) ∧
    (0 ≤ (scoreJob userId job fetched persistOk now).1.experienceMatchScore ∧
      (scoreJob userId job fetched persistOk now).1.experienceMatchScore ≤ 100) ∧
    (0 ≤ (scoreJob userId job fetched persistOk now).1.salaryMatchScore ∧
      (scoreJob userId job fetched persistOk now).1.salaryMatchScore ≤ 100) ∧
    (0 ≤ (scoreJob userId job fetched persistOk now).1.locationMatchScore ∧
      (scoreJob userId job fetched persistOk now).1.locationMatchScore ≤ 100) := by
  have hjs50 : jsRound ((50:ℚ) * (3/10) + 50 * (3/10) + 50 * (2/10) + 50 * (1/10) +
      50 * (1/10)) = 50 := by
    have harg : (50:ℚ) * (3/10) + 50 * (3/10) + 50 * (2/10) + 50 * (1/10) + 50 * (1/10) = 50 := by
      norm_num
    rw [harg]
    apply jsRound_eq_of <;> norm_num
  have hD : defaultScoreResult.overallScore =
      jsRound (defaultScoreResult.semanticScore * (3/10) +
        defaultScoreResult.skillMatchScore * (3/10) +
        defaultScoreResult.experienceMatchScore * (2/10) +
        defaultScoreResult.salaryMatchScore * (1/10) +
        defaultScoreResult.locationMatchScore * (1/10)) ∧
      (0 ≤ defaultScoreResult.overallScore ∧ defaultScoreResult.overallScore ≤ 100) ∧
      (0 ≤ defaultScoreResult.semanticScore ∧ defaultScoreResult.semanticScore ≤ 100) ∧
      (0 ≤ defaultScoreResult.skillMatchScore ∧ defaultScoreResult.skillMatchScore ≤ 100) ∧
      (0 ≤ defaultScoreResult.experienceMatchScore ∧
        defaultScoreResult.experienceMatchScore ≤ 100) ∧
      (0 ≤ defaultScoreResult.salaryMatchScore ∧ defaultScoreResult.salaryMatchScore ≤ 100) ∧
      (0 ≤ defaultScoreResult.locationMatchScore ∧
        defaultScoreResult.locationMatchScore ≤ 100) := by
    refine ⟨hjs50.symm, ?_, ?_, ?_, ?_, ?_, ?_⟩ <;> constructor <;> norm_num [defaultScoreResult]
  have hP : ∀ rows, (∀ t, rows.jobTargets = some t → ∀ v, t.minSalary = some v → 0 ≤ v) →
      (scoreJobPure job rows now).overallScore =
        jsRound ((scoreJobPure job rows now).semanticScore * (3/10) +
          (scoreJobPure job rows now).skillMatchScore * (3/10) +
          (scoreJobPure job rows now).experienceMatchScore * (2/10) +
          (scoreJobPure job rows now).salaryMatchScore * (1/10) +
          (scoreJobPure job rows now).locationMatchScore * (1/10)) ∧
      (0 ≤ (scoreJobPure job rows now).overallScore ∧
        (scoreJobPure job rows now).overallScore ≤ 100) ∧
      (0 ≤ (scoreJobPure job rows now).semanticScore ∧
        (scoreJobPure job rows now).semanticScore ≤ 100) ∧
      (0 ≤ (scoreJobPure job rows now).skillMatchScore ∧
        (scoreJobPure job rows now).skillMatchScore ≤ 100) ∧
      (0 ≤ (scoreJobPure job rows now).experienceMatchScore ∧
        (scoreJobPure job rows now).experienceMatchScore ≤ 100) ∧
      (0 ≤ (scoreJobPure job rows now).salaryMatchScore ∧
        (scoreJobPure job rows now).salaryMatchScore ≤ 100) ∧
      (0 ≤ (scoreJobPure job rows now).locationMatchScore ∧
        (scoreJobPure job rows now).locationMatchScore ≤ 100) := by
    intro rows hmin'
    have hsk := skillScore_bounds job rows.skills
    have hex := expScore_bounds job rows.experiences now
    have hsa := salaryScore_bounds job rows.jobTargets hmin'
    have hlo := locScore_bounds job rows.jobTargets
    have hsem : (scoreJobPure job rows now).semanticScore = 70 := rfl
    have hskf : (scoreJobPure job rows now).skillMatchScore =
        (calculateSkillMatch job rows.skills).score := rfl
    have hexf : (scoreJobPure job rows now).experienceMatchScore =
        (calculateExperienceMatch job rows.experiences now).score := rfl
    have hsaf : (scoreJobPure job rows now).salaryMatchScore =
        (calculateSalaryMatch job rows.jobTargets).score := rfl
    have hlof : (scoreJobPure job rows now).locationMatchScore =
        (calculateLocationMatch job rows.jobTargets).score := rfl
    have hov : (scoreJobPure job rows now).overallScore =
        jsRound ((70:ℚ) * (3/10) + (calculateSkillMatch job rows.skills).score * (3/10) +
          (calculateExperienceMatch job rows.experiences now).score * (2/10) +
          (calculateSalaryMatch job rows.jobTargets).score * (1/10) +
          (calculateLocationMatch job rows.jobTargets).score * (1/10)) := rfl
    have hsum0 : (0:ℚ) ≤ 70 * (3/10) + (calculateSkillMatch job rows.skills).score * (3/10) +
        (calculateExperienceMatch job rows.experiences now).score * (2/10) +
        (calculateSalaryMatch job rows.jobTargets).score * (1/10) +
        (calculateLocationMatch job rows.jobTargets).score * (1/10) := by
      linarith [hsk.1, hex.1, hsa.1, hlo.1]
    have hsum1 : (70:ℚ) * (3/10) + (calculateSkillMatch job rows.skills).score * (3/10) +
        (calculateExperienceMatch job rows.experiences now).score * (2/10) +
        (calculateSalaryMatch job rows.jobTargets).score * (1/10) +
        (calculateLocationMatch job rows.jobTargets).score * (1/10) ≤ 100 := by
      linarith [hsk.2, hex.2, hsa.2, hlo.2]
    refine ⟨?_, ⟨?_, ?_⟩, ⟨?_, ?_⟩, ⟨?_, ?_⟩, ⟨?_, ?_⟩, ⟨?_, ?_⟩, ⟨?_, ?_⟩⟩
    · rw [hov, hsem, hskf, hexf, hsaf, hlof]
    · rw [hov]; exact jsRound_nonneg _ hsum0
    · rw [hov]; exact jsRound_le_100 _ hsum1
    · rw [hsem]; norm_num
    · rw [hsem]; norm_num
    · rw [hskf]; exact hsk.1
    · rw [hskf]; exact hsk.2
    · rw [hexf]; exact hex.1
    · rw [hexf]; exact hex.2
    · rw [hsaf]; exact hsa.1
    · rw [hsaf]; exact hsa.2
    · rw [hlof]; exact hlo.1
    · rw [hlof]; exact hlo.2
  cases fetched with
  | error e =>
    have hred : (scoreJob userId job (.error e) persistOk now).1 = defaultScoreResult := by
      simp [scoreJob]
    rw [hred]
    exact hD
  | ok rows =>
    cases persistOk with
    | false =>
      have hred : (scoreJob userId job (.ok rows) false now).1 = defaultScoreResult := by
        simp [scoreJob]
      rw [hred]
      exact hD
    | true =>
      have hred : (scoreJob userId job (.ok rows) true now).1 = scoreJobPure job rows now := by
        simp [scoreJob]
      rw [hred]
      exact hP rows (hmin rows rfl)

/-- Witness for C1 at a concrete job and profile with a positive salary
target. -/
theorem C1_overall_weighted_and_bounded_witness :
    (scoreJob "user-1" jobPythonDjango (.ok salaryRows) true { y := 2024, m := 0 }).1.overallScore =
      jsRound ((scoreJob "user-1" jobPythonDjango (.ok salaryRows) true
          { y := 2024, m := 0 }).1.semanticScore * (3/10) +
        (scoreJob "user-1" jobPythonDjango (.ok salaryRows) true
          { y := 2024, m := 0 }).1.skillMatchScore * (3/10) +
        (scoreJob "user-1" jobPythonDjango (.ok salaryRows) true
          { y := 2024, m := 0 }).1.experienceMatchScore * (2/10) +
        (scoreJob "user-1" jobPythonDjango (.ok salaryRows) true
          { y := 2024, m := 0 }).1.salaryMatchScore * (1/10) +
        (scoreJob "user-1" jobPythonDjango (.ok salaryRows) true
          { y := 2024, m := 0 }).1.locationMatchScore * (1/10)) ∧
    (0 ≤ (scoreJob "user-1" jobPythonDjango (.ok salaryRows) true
        { y := 2024, m := 0 }).1.overallScore ∧
      (scoreJob "user-1" jobPythonDjango (.ok salaryRows) true
        { y := 2024, m := 0 }).1.overallScore ≤ 100) :=
  ⟨(C1_overall_weighted_and_bounded "user-1" jobPythonDjango (.ok salaryRows) true
      { y := 2024, m := 0 } (by
        intro rows h t ht v hv
        cases h
        cases ht
        cases hv
        decide)).1,
   (C1_overall_weighted_and_bounded "user-1" jobPythonDjango (.ok salaryRows) true
      { y := 2024, m := 0 } (by
        intro rows h t ht v hv
        cases h
        cases ht
        cases hv
        decide)).2.1⟩
